import Mathlib

/-!
Shallow embedding of `modules/audio_coding/neteq/delay_manager.cc` (the WebRTC
NetEq `DelayManager`).

Conventions:
* C++ `int` is modelled as unbounded `Int` (the properties below are stated at
  value ranges where the C++ arithmetic does not overflow); division of `int`s
  is C++ truncated division, written `Int.tdiv`.
* `uint32_t` RTP timestamps are modelled as `Nat` reduced modulo `2^32`;
  `usub32` is unsigned wraparound subtraction and `toSigned32` the
  `static_cast<int32_t>` reinterpretation.
* The external collaborators (Histogram, TickTimer/Stopwatch) are oracles:
  each `Update` call receives the stopwatch reading (`elapsed_ms`) and the
  histogram's answers (`quantile_bucket`, `num_buckets`) as inputs in an
  `UpdateEnv`.  This covers every possible collaborator behaviour.
* Three ghost fields record observable interactions for specification only:
  `stopwatch_resets` counts `GetNewStopwatch` calls, `hist_adds` records the
  bucket indices passed to `Histogram::Add`, and `last_horizon` records the
  eviction horizon (`kMaxHistoryMs * sample_rate_hz / 1000` as `uint32_t`)
  used by the most recent history append (0 when the history was last cleared).
  No modelled code path reads a ghost field.
-/

namespace NetEq

def U32 : Nat := 4294967296

def HALF32 : Nat := 2147483648

/-- Unsigned 32-bit wraparound subtraction `(a - b) mod 2^32`. -/
def usub32 (a b : Nat) : Nat := (a % U32 + (U32 - b % U32)) % U32

/-- Reinterpret a `uint32_t` value as a signed `int32_t` (two's complement). -/
def toSigned32 (n : Nat) : Int :=
  if n % U32 < HALF32 then ((n % U32 : Nat) : Int) else ((n % U32 : Nat) : Int) - (U32 : Int)

/-- Modelled from the spec: `IsNewerTimestamp` lives in
`modules/include/module_common_types_public.h`, which is not part of the
sources here.  The spec describes it as "strictly newer under
timestamp-wraparound-aware comparison", with the subtraction "performed with
unsigned 32-bit wraparound semantics and then reinterpreted as signed":
`timestamp` is strictly newer than `prev_timestamp` iff the wrapped difference,
read as a signed 32-bit value, is positive. -/
def IsNewerTimestamp (timestamp prev_timestamp : Nat) : Bool :=
  decide (0 < usub32 timestamp prev_timestamp ∧ usub32 timestamp prev_timestamp < HALF32)

def kMinBaseMinimumDelayMs : Int := 0
def kMaxBaseMinimumDelayMs : Int := 10000
def kMaxHistoryMs : Int := 2000
def kDelayBuckets : Int := 100
def kBucketSizeMs : Int := 20
def kStartDelayMs : Int := 80
def kMaxNumReorderedPackets : Int := 5

structure PacketDelay where
  iat_delay_ms : Int
  timestamp : Nat
deriving DecidableEq

/-- Oracle inputs standing in for the external collaborators during one
`Update` call: the stopwatch's `ElapsedMs()` reading, the histogram's
`Quantile(...)` answer and its `NumBuckets()`. -/
structure UpdateEnv where
  elapsed_ms : Int
  quantile_bucket : Int
  num_buckets : Int
deriving DecidableEq

structure DelayManager where
  first_packet_received : Bool
  max_packets_in_buffer : Int
  base_minimum_delay_ms : Int
  effective_minimum_delay_ms : Int
  minimum_delay_ms : Int
  maximum_delay_ms : Int
  packet_len_ms : Int
  target_level_ms : Int
  last_timestamp : Nat
  num_reordered_packets : Int
  delay_history : List PacketDelay
  /-- Ghost: number of `tick_timer_->GetNewStopwatch()` calls so far. -/
  stopwatch_resets : Nat
  /-- Ghost: eviction horizon used at the most recent history append. -/
  last_horizon : Nat
  /-- Ghost: bucket indices passed to `histogram_->Add`. -/
  hist_adds : List Int
deriving DecidableEq

namespace DelayManager

/-- `DelayManager::Reset` (delay_manager.cc:221-229).  `histogram_->Reset()`
clears the ghost `hist_adds`; the fresh stopwatch bumps `stopwatch_resets`. -/
def Reset (s : DelayManager) : DelayManager :=
  { s with packet_len_ms := 0,
           hist_adds := [],
           delay_history := [],
           target_level_ms := kStartDelayMs,
           stopwatch_resets := s.stopwatch_resets + 1,
           first_packet_received := false,
           num_reordered_packets := 0,
           last_horizon := 0 }

/-- The constructor (delay_manager.cc:85-105): member initializers followed by
the `Reset()` call performed in the constructor body. -/
def construct (max_packets_in_buffer base_minimum_delay_ms : Int) : DelayManager :=
  Reset
    { first_packet_received := false,
      max_packets_in_buffer := max_packets_in_buffer,
      base_minimum_delay_ms := base_minimum_delay_ms,
      effective_minimum_delay_ms := base_minimum_delay_ms,
      minimum_delay_ms := 0,
      maximum_delay_ms := 0,
      packet_len_ms := 0,
      target_level_ms := kStartDelayMs,
      last_timestamp := 0,
      num_reordered_packets := 0,
      delay_history := [],
      stopwatch_resets := 0,
      last_horizon := 0,
      hist_adds := [] }

/-- `DelayManager::MinimumDelayUpperBound` (delay_manager.cc:291-299). -/
def MinimumDelayUpperBound (s : DelayManager) : Int :=
  let q75 := Int.tdiv (s.max_packets_in_buffer * s.packet_len_ms * 3) 4
  let q75 := if 0 < q75 then q75 else kMaxBaseMinimumDelayMs
  let maximum_delay_ms := if 0 < s.maximum_delay_ms then s.maximum_delay_ms else kMaxBaseMinimumDelayMs
  min maximum_delay_ms q75

/-- `rtc::SafeClamp(value, lo, hi)` on `int` arguments. -/
def rtcSafeClamp (value lo hi : Int) : Int :=
  if value < lo then lo else if hi < value then hi else value

/-- `DelayManager::UpdateEffectiveMinimumDelay` (delay_manager.cc:282-289). -/
def UpdateEffectiveMinimumDelay (s : DelayManager) : DelayManager :=
  let base_minimum_delay_ms := rtcSafeClamp s.base_minimum_delay_ms 0 (MinimumDelayUpperBound s)
  { s with effective_minimum_delay_ms := max s.minimum_delay_ms base_minimum_delay_ms }

/-- `DelayManager::IsValidMinimumDelay` (delay_manager.cc:235-237). -/
def IsValidMinimumDelay (s : DelayManager) (delay_ms : Int) : Bool :=
  decide (0 ≤ delay_ms ∧ delay_ms ≤ MinimumDelayUpperBound s)

/-- `DelayManager::IsValidBaseMinimumDelay` (delay_manager.cc:239-242). -/
def IsValidBaseMinimumDelay (delay_ms : Int) : Bool :=
  decide (kMinBaseMinimumDelayMs ≤ delay_ms ∧ delay_ms ≤ kMaxBaseMinimumDelayMs)

/-- `DelayManager::SetMinimumDelay` (delay_manager.cc:244-252). -/
def SetMinimumDelay (s : DelayManager) (delay_ms : Int) : Bool × DelayManager :=
  if IsValidMinimumDelay s delay_ms then
    (true, UpdateEffectiveMinimumDelay { s with minimum_delay_ms := delay_ms })
  else (false, s)

/-- `DelayManager::SetMaximumDelay` (delay_manager.cc:254-266). -/
def SetMaximumDelay (s : DelayManager) (delay_ms : Int) : Bool × DelayManager :=
  if delay_ms ≠ 0 ∧ (delay_ms < s.minimum_delay_ms ∨ delay_ms < s.packet_len_ms) then
    (false, s)
  else (true, UpdateEffectiveMinimumDelay { s with maximum_delay_ms := delay_ms })

/-- `DelayManager::SetBaseMinimumDelay` (delay_manager.cc:268-276). -/
def SetBaseMinimumDelay (s : DelayManager) (delay_ms : Int) : Bool × DelayManager :=
  if IsValidBaseMinimumDelay delay_ms then
    (true, UpdateEffectiveMinimumDelay { s with base_minimum_delay_ms := delay_ms })
  else (false, s)

/-- `DelayManager::SetPacketAudioLength` (delay_manager.cc:212-219). -/
def SetPacketAudioLength (s : DelayManager) (length_ms : Int) : Int × DelayManager :=
  if length_ms ≤ 0 then (-1, s) else (0, { s with packet_len_ms := length_ms })

/-- `DelayManager::TargetDelayMs` (delay_manager.cc:231-233). -/
def TargetDelayMs (s : DelayManager) : Int := s.target_level_ms

/-- `DelayManager::GetBaseMinimumDelay` (delay_manager.cc:278-280). -/
def GetBaseMinimumDelay (s : DelayManager) : Int := s.base_minimum_delay_ms

/-- `expected_iat_ms` (delay_manager.cc:138-139):
`1000 * static_cast<int32_t>(timestamp - last_timestamp_) / sample_rate_hz`. -/
def expectedIatMs (s : DelayManager) (timestamp : Nat) (sample_rate_hz : Int) : Int :=
  Int.tdiv (1000 * toSigned32 (usub32 timestamp s.last_timestamp)) sample_rate_hz

/-- `iat_delay_ms` (delay_manager.cc:140-141): stopwatch elapsed time minus
the expected inter-arrival time. -/
def iatDelayMs (s : DelayManager) (timestamp : Nat) (sample_rate_hz : Int)
    (env : UpdateEnv) : Int :=
  env.elapsed_ms - expectedIatMs s timestamp sample_rate_hz

/-- `static_cast<uint32_t>(kMaxHistoryMs * sample_rate_hz / 1000)`
(delay_manager.cc:193-194). -/
def horizonTicks (sample_rate_hz : Int) : Nat :=
  (Int.toNat (Int.tdiv (kMaxHistoryMs * sample_rate_hz) 1000)) % U32

/-- The front-eviction `while` loop of `UpdateDelayHistory`
(delay_manager.cc:193-196). -/
def evictOld (timestamp : Nat) (horizon : Nat) : List PacketDelay → List PacketDelay
  | [] => []
  | d :: rest =>
      if horizon < usub32 timestamp d.timestamp then evictOld timestamp horizon rest
      else d :: rest

/-- `DelayManager::UpdateDelayHistory` (delay_manager.cc:186-197): push the new
sample at the back, then evict stale samples from the front. -/
def UpdateDelayHistory (s : DelayManager) (iat_delay_ms : Int) (timestamp : Nat)
    (sample_rate_hz : Int) : List PacketDelay :=
  evictOld timestamp (horizonTicks sample_rate_hz)
    (s.delay_history ++ [{ iat_delay_ms := iat_delay_ms, timestamp := timestamp % U32 }])

/-- `DelayManager::CalculateRelativePacketArrivalDelay` (delay_manager.cc:199-210). -/
def CalculateRelativePacketArrivalDelay (hist : List PacketDelay) : Int :=
  hist.foldl (fun relative_delay d => max (relative_delay + d.iat_delay_ms) 0) 0

/-- The target-level computation of `Update` (delay_manager.cc:156-168), given
the histogram's quantile bucket index. -/
def targetLevelFrom (s : DelayManager) (bucket_index : Int) : Int :=
  let t := (1 + bucket_index) * kBucketSizeMs
  let t := max t s.effective_minimum_delay_ms
  let t := if 0 < s.maximum_delay_ms then min t s.maximum_delay_ms else t
  if 0 < s.packet_len_ms then
    min (max t s.packet_len_ms) (Int.tdiv (3 * s.max_packets_in_buffer * s.packet_len_ms) 4)
  else t

/-- `DelayManager::Update` (delay_manager.cc:121-184). -/
def Update (s : DelayManager) (timestamp : Nat) (sample_rate_hz : Int) (reset : Bool)
    (env : UpdateEnv) : Option Int × DelayManager :=
  if sample_rate_hz ≤ 0 then (none, s)
  else if !s.first_packet_received || reset then
    (none, { s with delay_history := [],
                    stopwatch_resets := s.stopwatch_resets + 1,
                    last_timestamp := timestamp % U32,
                    first_packet_received := true,
                    num_reordered_packets := 0,
                    last_horizon := 0 })
  else
    let iat_delay_ms := iatDelayMs s timestamp sample_rate_hz env
    let reordered := ! IsNewerTimestamp timestamp s.last_timestamp
    let relhist : Int × List PacketDelay :=
      if reordered then (max iat_delay_ms 0, s.delay_history)
      else
        let h := UpdateDelayHistory s iat_delay_ms timestamp sample_rate_hz
        (CalculateRelativePacketArrivalDelay h, h)
    let index := Int.tdiv relhist.1 kBucketSizeMs
    let hist_adds := if index < env.num_buckets then s.hist_adds ++ [index] else s.hist_adds
    let target := targetLevelFrom s env.quantile_bucket
    if reordered then
      if s.num_reordered_packets < kMaxNumReorderedPackets then
        (some relhist.1,
         { s with target_level_ms := target,
                  delay_history := relhist.2,
                  hist_adds := hist_adds,
                  num_reordered_packets := s.num_reordered_packets + 1 })
      else
        (some relhist.1,
         { s with target_level_ms := target,
                  delay_history := [],
                  hist_adds := hist_adds,
                  num_reordered_packets := 0,
                  stopwatch_resets := s.stopwatch_resets + 1,
                  last_timestamp := timestamp % U32,
                  last_horizon := 0 })
    else
      (some relhist.1,
       { s with target_level_ms := target,
                delay_history := relhist.2,
                hist_adds := hist_adds,
                num_reordered_packets := 0,
                stopwatch_resets := s.stopwatch_resets + 1,
                last_timestamp := timestamp % U32,
                last_horizon := horizonTicks sample_rate_hz })

end DelayManager

/-- One call on the public surface of the manager. -/
inductive Op where
  | update (timestamp : Nat) (sample_rate_hz : Int) (reset : Bool) (env : UpdateEnv)
  | setMinimumDelay (ms : Int)
  | setMaximumDelay (ms : Int)
  | setBaseMinimumDelay (ms : Int)
  | setPacketAudioLength (ms : Int)
  | reset

def applyOp (s : DelayManager) : Op → DelayManager
  | .update ts r rst env => (s.Update ts r rst env).2
  | .setMinimumDelay ms => (s.SetMinimumDelay ms).2
  | .setMaximumDelay ms => (s.SetMaximumDelay ms).2
  | .setBaseMinimumDelay ms => (s.SetBaseMinimumDelay ms).2
  | .setPacketAudioLength ms => (s.SetPacketAudioLength ms).2
  | .reset => s.Reset

def run (s : DelayManager) (ops : List Op) : DelayManager := ops.foldl applyOp s

/-- Spec wording for C2: "the running sum of `iat_delay_ms` across `history`
in arrival order, clamped to ≥ 0 at every step". -/
def specClampedSum : Int → List Int → Int
  | acc, [] => acc
  | acc, x :: xs => specClampedSum (max (acc + x) 0) xs

/-- Spec wording for C5: `clamp(base_minimum_delay_ms, 0, MinimumDelayUpperBound())`. -/
def specClamp (x lo hi : Int) : Int := max lo (min x hi)

/-- Spec wording for C5:
`effective_minimum_delay_ms = max(minimum_delay_ms, clamp(base_minimum_delay_ms, 0, MinimumDelayUpperBound()))`. -/
def specEffectiveMinimum (s : DelayManager) : Int :=
  max s.minimum_delay_ms (specClamp s.base_minimum_delay_ms 0 (s.MinimumDelayUpperBound))

/-- Spec wording for C5: `q75 = floor(3 * max_packets_in_buffer * packet_len_ms / 4)`,
with `q75 == 0` replaced by 10000, and `max_bound = maximum_delay_ms` if set
(positive), else 10000; result `min(max_bound, q75)`. -/
def specMinimumDelayUpperBound (s : DelayManager) : Int :=
  let q75 := Int.tdiv (3 * s.max_packets_in_buffer * s.packet_len_ms) 4
  let q75 := if q75 = 0 then kMaxBaseMinimumDelayMs else q75
  let max_bound := if 0 < s.maximum_delay_ms then s.maximum_delay_ms else kMaxBaseMinimumDelayMs
  min max_bound q75

/-- `i` successive `Update` calls with the same timestamp and rate (reset flag
false), the `i`-th call using environment `envs i`. -/
def updN (s : DelayManager) (ts : Nat) (rate : Int) (envs : Nat → UpdateEnv) : Nat → DelayManager
  | 0 => s
  | n + 1 => ((updN s ts rate envs n).Update ts rate false (envs (n + 1))).2

/-- Well-formedness of the delay history used as the inductive invariant for
the history-horizon property: all stored timestamps are reduced `uint32_t`
values, every entry is within `last_horizon` of `last_timestamp` (wraparound
distance), the distances are non-increasing from front to back, the horizon is
at most `2·1073741` (the largest horizon producible without signed overflow in
`kMaxHistoryMs * sample_rate_hz`), and the last entry carries
`last_timestamp`. -/
def histWF (s : DelayManager) : Prop :=
  s.last_timestamp < U32 ∧
  (∀ e ∈ s.delay_history, e.timestamp < U32) ∧
  s.last_horizon ≤ 2147482 ∧
  (∀ e ∈ s.delay_history, usub32 s.last_timestamp e.timestamp ≤ s.last_horizon) ∧
  s.delay_history.Pairwise
    (fun a b => usub32 s.last_timestamp b.timestamp ≤ usub32 s.last_timestamp a.timestamp) ∧
  (∀ e, s.delay_history.getLast? = some e → e.timestamp = s.last_timestamp)

/-- Sample rates for which `kMaxHistoryMs * sample_rate_hz` does not overflow
a 32-bit `int` (the C++ computation is undefined behaviour beyond this). -/
def opRateOK : Op → Prop
  | .update _ rate _ _ => rate ≤ 1073741
  | _ => True

/-! ### Helper lemmas -/

open DelayManager

lemma usub32_lt (a b : Nat) : usub32 a b < U32 := by
  have : 0 < U32 := by norm_num [U32]
  exact Nat.mod_lt _ this

lemma usub32_mod_left (a b : Nat) : usub32 (a % U32) b = usub32 a b := by
  simp [usub32, Nat.mod_mod_of_dvd, Nat.mod_mod]

lemma usub32_mod_right (a b : Nat) : usub32 a (b % U32) = usub32 a b := by
  simp [usub32, Nat.mod_mod]

lemma usub32_self (a : Nat) : usub32 a a = 0 := by
  simp [usub32, U32]
  omega

lemma usub32_add_chain (a b c : Nat)
    (hlt : usub32 a b + usub32 b c < U32) :
    usub32 a c = usub32 a b + usub32 b c := by
  simp only [usub32, U32] at *
  omega

lemma MinimumDelayUpperBound_pos (s : DelayManager) : 0 < s.MinimumDelayUpperBound := by
  unfold MinimumDelayUpperBound
  dsimp only
  rw [lt_min_iff]
  constructor <;> split_ifs <;> first | assumption | norm_num [kMaxBaseMinimumDelayMs]

lemma rtcSafeClamp_eq_specClamp (x lo hi : Int) (h : lo ≤ hi) :
    rtcSafeClamp x lo hi = specClamp x lo hi := by
  unfold rtcSafeClamp specClamp
  split_ifs <;> omega

/-- `UpdateEffectiveMinimumDelay` changes only `effective_minimum_delay_ms`,
and sets it to the spec's formula. -/
lemma updateEffectiveMinimumDelay_spec (s : DelayManager) :
    (UpdateEffectiveMinimumDelay s).effective_minimum_delay_ms = specEffectiveMinimum s ∧
    (UpdateEffectiveMinimumDelay s).minimum_delay_ms = s.minimum_delay_ms ∧
    (UpdateEffectiveMinimumDelay s).maximum_delay_ms = s.maximum_delay_ms ∧
    (UpdateEffectiveMinimumDelay s).base_minimum_delay_ms = s.base_minimum_delay_ms ∧
    (UpdateEffectiveMinimumDelay s).packet_len_ms = s.packet_len_ms ∧
    (UpdateEffectiveMinimumDelay s).max_packets_in_buffer = s.max_packets_in_buffer ∧
    (UpdateEffectiveMinimumDelay s).target_level_ms = s.target_level_ms := by
  refine ⟨?_, rfl, rfl, rfl, rfl, rfl, rfl⟩
  unfold UpdateEffectiveMinimumDelay specEffectiveMinimum
  dsimp only
  rw [rtcSafeClamp_eq_specClamp _ _ _ (le_of_lt (MinimumDelayUpperBound_pos s))]

/-- `specEffectiveMinimum` only reads the bound configuration fields. -/
lemma specEffectiveMinimum_congr (s t : DelayManager)
    (h1 : t.minimum_delay_ms = s.minimum_delay_ms)
    (h2 : t.base_minimum_delay_ms = s.base_minimum_delay_ms)
    (h3 : t.maximum_delay_ms = s.maximum_delay_ms)
    (h4 : t.packet_len_ms = s.packet_len_ms)
    (h5 : t.max_packets_in_buffer = s.max_packets_in_buffer) :
    specEffectiveMinimum t = specEffectiveMinimum s := by
  unfold specEffectiveMinimum MinimumDelayUpperBound
  rw [h1, h2, h3, h4, h5]

/-! ### C7 -/

/-- C7: calling `Update` with `sample_rate_hz ≤ 0` returns the empty result
and leaves the entire manager state unchanged, for every state and both values
of the reset flag. -/
theorem update_invalid_sample_rate_noop (s : DelayManager) (timestamp : Nat)
    (sample_rate_hz : Int) (reset : Bool) (env : UpdateEnv)
    (h : sample_rate_hz ≤ 0) :
    s.Update timestamp sample_rate_hz reset env = (none, s) := by
  simp [DelayManager.Update, h]

/-- Witness for C7 at a concrete input. -/
theorem update_invalid_sample_rate_noop_witness :
    (construct 10 0).Update 5 0 true ⟨7, 3, 100⟩ = (none, construct 10 0) :=
  update_invalid_sample_rate_noop (construct 10 0) 5 0 true ⟨7, 3, 100⟩ (by norm_num)

/-! ### C8 -/

/-- C8: the first `Update` call with a valid sample rate after construction,
after `Reset()`, or with `reset = true` returns the empty result and
reinitializes tracking: history cleared, stopwatch restarted,
`last_timestamp` set to the given timestamp, `first_packet_received` set,
reorder counter cleared; `target_level_ms` is not modified. -/
theorem update_first_packet_initializes (s : DelayManager) (timestamp : Nat)
    (sample_rate_hz : Int) (reset : Bool) (env : UpdateEnv)
    (hr : 0 < sample_rate_hz)
    (hfirst : s.first_packet_received = false ∨ reset = true) :
    (s.Update timestamp sample_rate_hz reset env).1 = none ∧
    (s.Update timestamp sample_rate_hz reset env).2.delay_history = [] ∧
    (s.Update timestamp sample_rate_hz reset env).2.stopwatch_resets = s.stopwatch_resets + 1 ∧
    (s.Update timestamp sample_rate_hz reset env).2.last_timestamp = timestamp % U32 ∧
    (s.Update timestamp sample_rate_hz reset env).2.first_packet_received = true ∧
    (s.Update timestamp sample_rate_hz reset env).2.num_reordered_packets = 0 ∧
    (s.Update timestamp sample_rate_hz reset env).2.target_level_ms = s.target_level_ms := by
  have hr' : ¬ sample_rate_hz ≤ 0 := not_le.mpr hr
  have hcond : (!s.first_packet_received || reset) = true := by
    rcases hfirst with h | h <;> simp [h]
  simp [DelayManager.Update, hr', hcond]

/-- Witness for C8 at a concrete input. -/
theorem update_first_packet_initializes_witness :
    ((construct 10 0).Update 1000 8000 false ⟨0, 1, 100⟩).1 = none ∧
    ((construct 10 0).Update 1000 8000 false ⟨0, 1, 100⟩).2.delay_history = [] ∧
    ((construct 10 0).Update 1000 8000 false ⟨0, 1, 100⟩).2.stopwatch_resets =
      (construct 10 0).stopwatch_resets + 1 ∧
    ((construct 10 0).Update 1000 8000 false ⟨0, 1, 100⟩).2.last_timestamp = 1000 % U32 ∧
    ((construct 10 0).Update 1000 8000 false ⟨0, 1, 100⟩).2.first_packet_received = true ∧
    ((construct 10 0).Update 1000 8000 false ⟨0, 1, 100⟩).2.num_reordered_packets = 0 ∧
    ((construct 10 0).Update 1000 8000 false ⟨0, 1, 100⟩).2.target_level_ms =
      (construct 10 0).target_level_ms :=
  update_first_packet_initializes (construct 10 0) 1000 8000 false ⟨0, 1, 100⟩
    (by norm_num) (Or.inl (by decide))

/-! ### C10 -/

/-- C10: every call to the four setters leaves `target_level_ms` unchanged,
whether it succeeds or fails; among the modelled operations only `Update` and
`Reset` write `target_level_ms`. -/
theorem setters_preserve_target_level (s : DelayManager) (ms : Int) :
    (s.SetMinimumDelay ms).2.target_level_ms = s.target_level_ms ∧
    (s.SetMaximumDelay ms).2.target_level_ms = s.target_level_ms ∧
    (s.SetBaseMinimumDelay ms).2.target_level_ms = s.target_level_ms ∧
    (s.SetPacketAudioLength ms).2.target_level_ms = s.target_level_ms := by
  refine ⟨?_, ?_, ?_, ?_⟩ <;>
    · simp only [SetMinimumDelay, SetMaximumDelay, SetBaseMinimumDelay, SetPacketAudioLength]
      split_ifs <;>
        simp [UpdateEffectiveMinimumDelay]

/-! ### C9 -/

/-- C9: `SetMaximumDelay 0` always succeeds and clears the maximum-delay
constraint; for `ms ≠ 0` the call succeeds iff `minimum_delay_ms ≤ ms` and
`packet_len_ms ≤ ms`, in which case it stores `ms`, recomputes
`effective_minimum_delay_ms` and changes nothing else; on failure it returns
`false` and leaves the whole state unchanged. -/
theorem set_maximum_delay_spec (s : DelayManager) (ms : Int) :
    ((s.SetMaximumDelay 0).1 = true ∧ (s.SetMaximumDelay 0).2.maximum_delay_ms = 0) ∧
    (ms ≠ 0 →
      ((s.SetMaximumDelay ms).1 = true ↔ s.minimum_delay_ms ≤ ms ∧ s.packet_len_ms ≤ ms)) ∧
    ((s.SetMaximumDelay ms).1 = true →
      (s.SetMaximumDelay ms).2.maximum_delay_ms = ms ∧
      (s.SetMaximumDelay ms).2.effective_minimum_delay_ms =
        specEffectiveMinimum (s.SetMaximumDelay ms).2 ∧
      (s.SetMaximumDelay ms).2.minimum_delay_ms = s.minimum_delay_ms ∧
      (s.SetMaximumDelay ms).2.base_minimum_delay_ms = s.base_minimum_delay_ms ∧
      (s.SetMaximumDelay ms).2.packet_len_ms = s.packet_len_ms ∧
      (s.SetMaximumDelay ms).2.target_level_ms = s.target_level_ms ∧
      (s.SetMaximumDelay ms).2.delay_history = s.delay_history) ∧
    ((s.SetMaximumDelay ms).1 = false → (s.SetMaximumDelay ms).2 = s) := by
  have hset : ∀ t : DelayManager,
      (UpdateEffectiveMinimumDelay t).effective_minimum_delay_ms =
        specEffectiveMinimum (UpdateEffectiveMinimumDelay t) := by
    intro t
    obtain ⟨h1, h2, h3, h4, h5, h6, _⟩ := updateEffectiveMinimumDelay_spec t
    rw [h1, specEffectiveMinimum_congr t _ h2 h4 h3 h5 h6]
  refine ⟨⟨?_, ?_⟩, ?_, ?_, ?_⟩
  · simp only [SetMaximumDelay]
    split_ifs with h
    · exact absurd rfl h.1
    · rfl
  · simp only [SetMaximumDelay]
    split_ifs with h
    · exact absurd rfl h.1
    · have := (updateEffectiveMinimumDelay_spec { s with maximum_delay_ms := 0 }).2.2.1
      simpa using this
  · intro hne
    simp only [SetMaximumDelay]
    split_ifs with h
    · simp only [Bool.false_eq_true, false_iff]
      intro hc
      rcases h.2 with hlt | hlt <;> omega
    · simp only [true_iff]
      push_neg at h
      exact h hne
  · intro hok
    simp only [SetMaximumDelay] at hok ⊢
    split_ifs at hok ⊢ with h
    obtain ⟨_, h2, h3, h4, h5, h6, h7⟩ :=
      updateEffectiveMinimumDelay_spec { s with maximum_delay_ms := ms }
    exact ⟨h3, hset _, h2, h4, h5, h7, rfl⟩
  · intro hfail
    simp only [SetMaximumDelay] at hfail ⊢
    split_ifs at hfail ⊢ with h
    rfl

/-- Witness for C9 at a concrete input: a state with `minimum_delay_ms = 40`
and `packet_len_ms = 20`, setting maximum delay 50. -/
theorem set_maximum_delay_spec_witness :
    let s := ((((construct 10 0).SetPacketAudioLength 20).2.SetMinimumDelay 40).2)
    ((s.SetMaximumDelay 0).1 = true ∧ (s.SetMaximumDelay 0).2.maximum_delay_ms = 0) ∧
    ((50 : Int) ≠ 0 →
      ((s.SetMaximumDelay 50).1 = true ↔ s.minimum_delay_ms ≤ 50 ∧ s.packet_len_ms ≤ 50)) ∧
    ((s.SetMaximumDelay 50).1 = true →
      (s.SetMaximumDelay 50).2.maximum_delay_ms = 50 ∧
      (s.SetMaximumDelay 50).2.effective_minimum_delay_ms =
        specEffectiveMinimum (s.SetMaximumDelay 50).2 ∧
      (s.SetMaximumDelay 50).2.minimum_delay_ms = s.minimum_delay_ms ∧
      (s.SetMaximumDelay 50).2.base_minimum_delay_ms = s.base_minimum_delay_ms ∧
      (s.SetMaximumDelay 50).2.packet_len_ms = s.packet_len_ms ∧
      (s.SetMaximumDelay 50).2.target_level_ms = s.target_level_ms ∧
      (s.SetMaximumDelay 50).2.delay_history = s.delay_history) ∧
    ((s.SetMaximumDelay 50).1 = false → (s.SetMaximumDelay 50).2 = s) :=
  set_maximum_delay_spec ((((construct 10 0).SetPacketAudioLength 20).2.SetMinimumDelay 40).2) 50

/-! ### C5 -/

/-- C5: `MinimumDelayUpperBound()` equals the spec's
`min(max_bound, q75)` formula (for the reachable sign conditions
`0 ≤ max_packets_in_buffer` and `0 ≤ packet_len_ms`), and after every
successful call to any of the three bound setters,
`effective_minimum_delay_ms = max(minimum_delay_ms, clamp(base_minimum_delay_ms, 0, MinimumDelayUpperBound()))`. -/
theorem minimum_delay_upper_bound_and_effective_minimum
    (s s' : DelayManager) (ms : Int) :
    (0 ≤ s.max_packets_in_buffer → 0 ≤ s.packet_len_ms →
      s.MinimumDelayUpperBound = specMinimumDelayUpperBound s) ∧
    (s.SetMinimumDelay ms = (true, s') →
      s'.effective_minimum_delay_ms = specEffectiveMinimum s') ∧
    (s.SetMaximumDelay ms = (true, s') →
      s'.effective_minimum_delay_ms = specEffectiveMinimum s') ∧
    (s.SetBaseMinimumDelay ms = (true, s') →
      s'.effective_minimum_delay_ms = specEffectiveMinimum s') := by
  have hset : ∀ t : DelayManager,
      (UpdateEffectiveMinimumDelay t).effective_minimum_delay_ms =
        specEffectiveMinimum (UpdateEffectiveMinimumDelay t) := by
    intro t
    obtain ⟨h1, h2, h3, h4, h5, h6, _⟩ := updateEffectiveMinimumDelay_spec t
    rw [h1, specEffectiveMinimum_congr t _ h2 h4 h3 h5 h6]
  refine ⟨?_, ?_, ?_, ?_⟩
  · intro hmp hpl
    unfold MinimumDelayUpperBound specMinimumDelayUpperBound
    have hprod : s.max_packets_in_buffer * s.packet_len_ms * 3 =
        3 * s.max_packets_in_buffer * s.packet_len_ms := by ring
    have hq : 0 ≤ Int.tdiv (3 * s.max_packets_in_buffer * s.packet_len_ms) 4 :=
      Int.tdiv_nonneg (by positivity) (by norm_num)
    dsimp only
    rw [hprod]
    congr 1
    split_ifs <;> omega
  · intro h
    simp only [SetMinimumDelay] at h
    split_ifs at h
    · rw [show s' = UpdateEffectiveMinimumDelay { s with minimum_delay_ms := ms } from
        (congrArg Prod.snd h).symm]
      exact hset _
    · exact absurd (congrArg Prod.fst h) (by simp)
  · intro h
    simp only [SetMaximumDelay] at h
    split_ifs at h
    · exact absurd (congrArg Prod.fst h) (by simp)
    · rw [show s' = UpdateEffectiveMinimumDelay { s with maximum_delay_ms := ms } from
        (congrArg Prod.snd h).symm]
      exact hset _
  · intro h
    simp only [SetBaseMinimumDelay] at h
    split_ifs at h
    · rw [show s' = UpdateEffectiveMinimumDelay { s with base_minimum_delay_ms := ms } from
        (congrArg Prod.snd h).symm]
      exact hset _
    · exact absurd (congrArg Prod.fst h) (by simp)

/-- Witness for C5 at a concrete input. -/
theorem minimum_delay_upper_bound_and_effective_minimum_witness :
    (0 ≤ (construct 10 0).max_packets_in_buffer → 0 ≤ (construct 10 0).packet_len_ms →
      (construct 10 0).MinimumDelayUpperBound = specMinimumDelayUpperBound (construct 10 0)) ∧
    ((construct 10 0).SetMinimumDelay 100 = (true, ((construct 10 0).SetMinimumDelay 100).2) →
      ((construct 10 0).SetMinimumDelay 100).2.effective_minimum_delay_ms =
        specEffectiveMinimum ((construct 10 0).SetMinimumDelay 100).2) ∧
    ((construct 10 0).SetMaximumDelay 100 = (true, ((construct 10 0).SetMinimumDelay 100).2) →
      ((construct 10 0).SetMinimumDelay 100).2.effective_minimum_delay_ms =
        specEffectiveMinimum ((construct 10 0).SetMinimumDelay 100).2) ∧
    ((construct 10 0).SetBaseMinimumDelay 100 = (true, ((construct 10 0).SetMinimumDelay 100).2) →
      ((construct 10 0).SetMinimumDelay 100).2.effective_minimum_delay_ms =
        specEffectiveMinimum ((construct 10 0).SetMinimumDelay 100).2) :=
  minimum_delay_upper_bound_and_effective_minimum (construct 10 0)
    ((construct 10 0).SetMinimumDelay 100).2 100

/-! ### Equations characterizing `Update` in the tracking state -/

lemma update_inorder_eq (s : DelayManager) (ts : Nat) (rate : Int) (env : UpdateEnv)
    (hr : 0 < rate) (hfirst : s.first_packet_received = true)
    (hnew : IsNewerTimestamp ts s.last_timestamp = true) :
    s.Update ts rate false env =
      (some (CalculateRelativePacketArrivalDelay
               (UpdateDelayHistory s (iatDelayMs s ts rate env) ts rate)),
       { s with
         target_level_ms := targetLevelFrom s env.quantile_bucket,
         delay_history := UpdateDelayHistory s (iatDelayMs s ts rate env) ts rate,
         hist_adds :=
           if Int.tdiv (CalculateRelativePacketArrivalDelay
                 (UpdateDelayHistory s (iatDelayMs s ts rate env) ts rate)) kBucketSizeMs
               < env.num_buckets then
             s.hist_adds ++ [Int.tdiv (CalculateRelativePacketArrivalDelay
                 (UpdateDelayHistory s (iatDelayMs s ts rate env) ts rate)) kBucketSizeMs]
           else s.hist_adds,
         num_reordered_packets := 0,
         stopwatch_resets := s.stopwatch_resets + 1,
         last_timestamp := ts % U32,
         last_horizon := horizonTicks rate }) := by
  have hr' : ¬ rate ≤ 0 := not_le.mpr hr
  simp [DelayManager.Update, hr', hfirst, hnew]

lemma update_reordered_lt_eq (s : DelayManager) (ts : Nat) (rate : Int) (env : UpdateEnv)
    (hr : 0 < rate) (hfirst : s.first_packet_received = true)
    (hnew : IsNewerTimestamp ts s.last_timestamp = false)
    (hcnt : s.num_reordered_packets < kMaxNumReorderedPackets) :
    s.Update ts rate false env =
      (some (max (iatDelayMs s ts rate env) 0),
       { s with
         target_level_ms := targetLevelFrom s env.quantile_bucket,
         hist_adds :=
           if Int.tdiv (max (iatDelayMs s ts rate env) 0) kBucketSizeMs < env.num_buckets then
             s.hist_adds ++ [Int.tdiv (max (iatDelayMs s ts rate env) 0) kBucketSizeMs]
           else s.hist_adds,
         num_reordered_packets := s.num_reordered_packets + 1 }) := by
  have hr' : ¬ rate ≤ 0 := not_le.mpr hr
  simp [DelayManager.Update, hr', hfirst, hnew, hcnt]

lemma update_reordered_ge_eq (s : DelayManager) (ts : Nat) (rate : Int) (env : UpdateEnv)
    (hr : 0 < rate) (hfirst : s.first_packet_received = true)
    (hnew : IsNewerTimestamp ts s.last_timestamp = false)
    (hcnt : ¬ s.num_reordered_packets < kMaxNumReorderedPackets) :
    s.Update ts rate false env =
      (some (max (iatDelayMs s ts rate env) 0),
       { s with
         target_level_ms := targetLevelFrom s env.quantile_bucket,
         delay_history := [],
         hist_adds :=
           if Int.tdiv (max (iatDelayMs s ts rate env) 0) kBucketSizeMs < env.num_buckets then
             s.hist_adds ++ [Int.tdiv (max (iatDelayMs s ts rate env) 0) kBucketSizeMs]
           else s.hist_adds,
         num_reordered_packets := 0,
         stopwatch_resets := s.stopwatch_resets + 1,
         last_timestamp := ts % U32,
         last_horizon := 0 }) := by
  have hr' : ¬ rate ≤ 0 := not_le.mpr hr
  simp [DelayManager.Update, hr', hfirst, hnew, hcnt]

/-! ### C2 -/

lemma foldl_clamped_eq_specClampedSum (l : List PacketDelay) (acc : Int) :
    l.foldl (fun relative_delay d => max (relative_delay + d.iat_delay_ms) 0) acc =
      specClampedSum acc (l.map PacketDelay.iat_delay_ms) := by
  induction l generalizing acc with
  | nil => rfl
  | cons d rest ih => simp [specClampedSum, ih]

lemma specClampedSum_nonneg (l : List Int) (acc : Int) (h : 0 ≤ acc) :
    0 ≤ specClampedSum acc l := by
  induction l generalizing acc with
  | nil => exact h
  | cons x rest ih => exact ih _ (le_max_right _ _)

/-- C2: for an in-order packet processed by `Update` in the tracking state,
the returned relative arrival delay equals the running sum of `iat_delay_ms`
over the (post-call) history entries in arrival order, clamped to `≥ 0` after
each addition; in particular the returned relative delay is non-negative. -/
theorem update_inorder_returns_clamped_running_sum (s : DelayManager) (ts : Nat)
    (rate : Int) (env : UpdateEnv)
    (hr : 0 < rate) (hfirst : s.first_packet_received = true)
    (hnew : IsNewerTimestamp ts s.last_timestamp = true) :
    (s.Update ts rate false env).1 =
      some (specClampedSum 0
        (((s.Update ts rate false env).2.delay_history).map PacketDelay.iat_delay_ms)) ∧
    ∀ v, (s.Update ts rate false env).1 = some v → 0 ≤ v := by
  rw [update_inorder_eq s ts rate env hr hfirst hnew]
  constructor
  · simp [CalculateRelativePacketArrivalDelay, foldl_clamped_eq_specClampedSum]
  · intro v hv
    simp only [Option.some.injEq] at hv
    rw [← hv, CalculateRelativePacketArrivalDelay, foldl_clamped_eq_specClampedSum]
    exact specClampedSum_nonneg _ _ le_rfl

/-- Witness for C2 at a concrete input. -/
theorem update_inorder_returns_clamped_running_sum_witness :
    let s := ((construct 10 0).Update 1000 8000 false ⟨0, 1, 100⟩).2
    (s.Update 1160 8000 false ⟨30, 2, 100⟩).1 =
      some (specClampedSum 0
        (((s.Update 1160 8000 false ⟨30, 2, 100⟩).2.delay_history).map PacketDelay.iat_delay_ms)) ∧
    ∀ v, (s.Update 1160 8000 false ⟨30, 2, 100⟩).1 = some v → 0 ≤ v :=
  update_inorder_returns_clamped_running_sum
    ((construct 10 0).Update 1000 8000 false ⟨0, 1, 100⟩).2 1160 8000 ⟨30, 2, 100⟩
    (by norm_num) (by decide) (by decide)

/-! ### C3 -/

lemma evictOld_getLast_concat (ts horizon : Nat) (l : List PacketDelay) (x : PacketDelay)
    (hx : usub32 ts x.timestamp ≤ horizon) :
    (evictOld ts horizon (l ++ [x])).getLast? = some x := by
  induction l with
  | nil =>
      simp only [List.nil_append, evictOld]
      rw [if_neg (not_lt.mpr hx)]
      rfl
  | cons a rest ih =>
      simp only [List.cons_append, evictOld]
      split_ifs with h
      · exact ih
      · exact List.getLast?_concat (a :: rest)

/-- C3: in the tracking state a packet is classified as reordered exactly when
its timestamp is not strictly newer than `last_timestamp` under the
wraparound-aware comparison.  For a reordered packet no sample is appended to
the history (the history is left unchanged, or cleared at the tolerance
threshold), the returned relative delay is `max(iat_delay_ms, 0)`, and while
the reorder counter is below 5 neither `last_timestamp` nor the stopwatch is
advanced; for an in-order packet the new sample is appended. -/
theorem update_reordered_classification (s : DelayManager) (ts : Nat)
    (rate : Int) (env : UpdateEnv)
    (hr : 0 < rate) (hfirst : s.first_packet_received = true) :
    (IsNewerTimestamp ts s.last_timestamp = false →
      (s.Update ts rate false env).1 = some (max (iatDelayMs s ts rate env) 0) ∧
      ((s.Update ts rate false env).2.delay_history = s.delay_history ∨
        (s.Update ts rate false env).2.delay_history = []) ∧
      (s.num_reordered_packets < kMaxNumReorderedPackets →
        (s.Update ts rate false env).2.delay_history = s.delay_history ∧
        (s.Update ts rate false env).2.last_timestamp = s.last_timestamp ∧
        (s.Update ts rate false env).2.stopwatch_resets = s.stopwatch_resets ∧
        (s.Update ts rate false env).2.num_reordered_packets =
          s.num_reordered_packets + 1)) ∧
    (IsNewerTimestamp ts s.last_timestamp = true →
      ((s.Update ts rate false env).2.delay_history).getLast? =
        some ⟨iatDelayMs s ts rate env, ts % U32⟩) := by
  constructor
  · intro hnew
    by_cases hcnt : s.num_reordered_packets < kMaxNumReorderedPackets
    · rw [update_reordered_lt_eq s ts rate env hr hfirst hnew hcnt]
      exact ⟨rfl, Or.inl rfl, fun _ => ⟨rfl, rfl, rfl, rfl⟩⟩
    · rw [update_reordered_ge_eq s ts rate env hr hfirst hnew hcnt]
      exact ⟨rfl, Or.inr rfl, fun h => absurd h hcnt⟩
  · intro hnew
    rw [update_inorder_eq s ts rate env hr hfirst hnew]
    have hts : usub32 ts (ts % U32) ≤ horizonTicks rate := by
      rw [usub32_mod_right, usub32_self]
      exact Nat.zero_le _
    exact evictOld_getLast_concat ts (horizonTicks rate) s.delay_history
      ⟨iatDelayMs s ts rate env, ts % U32⟩ hts

/-- Witness for C3 at concrete inputs. -/
theorem update_reordered_classification_witness :
    let s := ((construct 10 0).Update 1000 8000 false ⟨0, 1, 100⟩).2
    (IsNewerTimestamp 900 s.last_timestamp = false →
      (s.Update 900 8000 false ⟨30, 2, 100⟩).1 = some (max (iatDelayMs s 900 8000 ⟨30, 2, 100⟩) 0) ∧
      ((s.Update 900 8000 false ⟨30, 2, 100⟩).2.delay_history = s.delay_history ∨
        (s.Update 900 8000 false ⟨30, 2, 100⟩).2.delay_history = []) ∧
      (s.num_reordered_packets < kMaxNumReorderedPackets →
        (s.Update 900 8000 false ⟨30, 2, 100⟩).2.delay_history = s.delay_history ∧
        (s.Update 900 8000 false ⟨30, 2, 100⟩).2.last_timestamp = s.last_timestamp ∧
        (s.Update 900 8000 false ⟨30, 2, 100⟩).2.stopwatch_resets = s.stopwatch_resets ∧
        (s.Update 900 8000 false ⟨30, 2, 100⟩).2.num_reordered_packets =
          s.num_reordered_packets + 1)) ∧
    (IsNewerTimestamp 900 s.last_timestamp = true →
      ((s.Update 900 8000 false ⟨30, 2, 100⟩).2.delay_history).getLast? =
        some ⟨iatDelayMs s 900 8000 ⟨30, 2, 100⟩, 900 % U32⟩) :=
  update_reordered_classification
    ((construct 10 0).Update 1000 8000 false ⟨0, 1, 100⟩).2 900 8000 ⟨30, 2, 100⟩
    (by norm_num) (by decide)

/-! ### C1 -/

/-- C1 counterexample: on a freshly constructed manager (buffer capacity 10,
base minimum 0), the setter call `SetMinimumDelay 500` completes successfully,
yet afterwards `target_level_ms = 80 < 500 = effective_minimum_delay_ms`, so
the invariant `effective_minimum_delay_ms ≤ target_level_ms` does not hold
after every completed setter call. -/
theorem bounds_invariant_counterexample :
    ((construct 10 0).SetMinimumDelay 500).1 = true ∧
    ((construct 10 0).SetMinimumDelay 500).2.target_level_ms <
      ((construct 10 0).SetMinimumDelay 500).2.effective_minimum_delay_ms := by
  decide

lemma clamp_chain_bounds (eff maxd plen q t0 : Int) :
    ((0 < maxd → eff ≤ maxd) → (0 < plen → eff ≤ q) →
      eff ≤ (if 0 < plen then
               min (max (if 0 < maxd then min (max t0 eff) maxd else max t0 eff) plen) q
             else (if 0 < maxd then min (max t0 eff) maxd else max t0 eff))) ∧
    (0 < maxd → plen ≤ maxd →
      (if 0 < plen then
         min (max (if 0 < maxd then min (max t0 eff) maxd else max t0 eff) plen) q
       else (if 0 < maxd then min (max t0 eff) maxd else max t0 eff)) ≤ maxd) := by
  split_ifs <;> constructor <;> intros <;> omega

lemma targetLevelFrom_bounds (s : DelayManager) (b : Int) :
    ((0 < s.maximum_delay_ms → s.effective_minimum_delay_ms ≤ s.maximum_delay_ms) →
     (0 < s.packet_len_ms →
        s.effective_minimum_delay_ms ≤
          Int.tdiv (3 * s.max_packets_in_buffer * s.packet_len_ms) 4) →
      s.effective_minimum_delay_ms ≤ targetLevelFrom s b) ∧
    (0 < s.maximum_delay_ms → s.packet_len_ms ≤ s.maximum_delay_ms →
      targetLevelFrom s b ≤ s.maximum_delay_ms) := by
  have h := clamp_chain_bounds s.effective_minimum_delay_ms s.maximum_delay_ms
    s.packet_len_ms (Int.tdiv (3 * s.max_packets_in_buffer * s.packet_len_ms) 4)
    ((1 + b) * kBucketSizeMs)
  simpa [targetLevelFrom] using h

/-- C1 (amended): the claim as stated is false (see
`bounds_invariant_counterexample`).  What holds is: after each `Update` call
made in the tracking state with a valid sample rate, (a) if at call time
`effective_minimum_delay_ms` does not exceed `maximum_delay_ms` (when set) nor
`3·max_packets_in_buffer·packet_len_ms/4` (when `packet_len_ms > 0`), then
`effective_minimum_delay_ms ≤ target_level_ms`; and (b) if
`maximum_delay_ms > 0` and `packet_len_ms ≤ maximum_delay_ms`, then
`target_level_ms ≤ maximum_delay_ms`.  After setter calls the invariant need
not hold: setters leave `target_level_ms` untouched until the next `Update`. -/
theorem update_target_between_bounds (s : DelayManager) (ts : Nat)
    (rate : Int) (env : UpdateEnv)
    (hr : 0 < rate) (hfirst : s.first_packet_received = true) :
    ((0 < s.maximum_delay_ms →
        s.effective_minimum_delay_ms ≤ s.maximum_delay_ms) →
     (0 < s.packet_len_ms →
        s.effective_minimum_delay_ms ≤
          Int.tdiv (3 * s.max_packets_in_buffer * s.packet_len_ms) 4) →
      (s.Update ts rate false env).2.effective_minimum_delay_ms ≤
        (s.Update ts rate false env).2.target_level_ms) ∧
    (0 < s.maximum_delay_ms → s.packet_len_ms ≤ s.maximum_delay_ms →
      0 < (s.Update ts rate false env).2.maximum_delay_ms ∧
      (s.Update ts rate false env).2.target_level_ms ≤
        (s.Update ts rate false env).2.maximum_delay_ms) := by
  have hb := targetLevelFrom_bounds s env.quantile_bucket
  rcases Bool.eq_false_or_eq_true (IsNewerTimestamp ts s.last_timestamp) with hnew | hnew
  · rw [update_inorder_eq s ts rate env hr hfirst hnew]
    exact ⟨fun h1 h2 => hb.1 h1 h2, fun h1 h2 => ⟨h1, hb.2 h1 h2⟩⟩
  · by_cases hcnt : s.num_reordered_packets < kMaxNumReorderedPackets
    · rw [update_reordered_lt_eq s ts rate env hr hfirst hnew hcnt]
      exact ⟨fun h1 h2 => hb.1 h1 h2, fun h1 h2 => ⟨h1, hb.2 h1 h2⟩⟩
    · rw [update_reordered_ge_eq s ts rate env hr hfirst hnew hcnt]
      exact ⟨fun h1 h2 => hb.1 h1 h2, fun h1 h2 => ⟨h1, hb.2 h1 h2⟩⟩

/-- Witness for the amended C1 at a concrete input: tracking state with
`maximum_delay_ms = 100`, `packet_len_ms = 20`, buffer capacity 10. -/
theorem update_target_between_bounds_witness :
    let s := ((((((construct 10 0).SetPacketAudioLength 20).2.SetMaximumDelay 100).2).Update
                 1000 8000 false ⟨0, 1, 100⟩).2)
    ((0 < s.maximum_delay_ms →
        s.effective_minimum_delay_ms ≤ s.maximum_delay_ms) →
     (0 < s.packet_len_ms →
        s.effective_minimum_delay_ms ≤
          Int.tdiv (3 * s.max_packets_in_buffer * s.packet_len_ms) 4) →
      (s.Update 1160 8000 false ⟨30, 2, 100⟩).2.effective_minimum_delay_ms ≤
        (s.Update 1160 8000 false ⟨30, 2, 100⟩).2.target_level_ms) ∧
    (0 < s.maximum_delay_ms → s.packet_len_ms ≤ s.maximum_delay_ms →
      0 < (s.Update 1160 8000 false ⟨30, 2, 100⟩).2.maximum_delay_ms ∧
      (s.Update 1160 8000 false ⟨30, 2, 100⟩).2.target_level_ms ≤
        (s.Update 1160 8000 false ⟨30, 2, 100⟩).2.maximum_delay_ms) :=
  update_target_between_bounds
    ((((((construct 10 0).SetPacketAudioLength 20).2.SetMaximumDelay 100).2).Update
        1000 8000 false ⟨0, 1, 100⟩).2) 1160 8000 ⟨30, 2, 100⟩ (by norm_num) (by decide)

/-! ### C4 -/

lemma reorder_iter_facts (s : DelayManager) (ts : Nat) (rate : Int)
    (envs : Nat → UpdateEnv)
    (hr : 0 < rate) (hfirst : s.first_packet_received = true)
    (hcnt : s.num_reordered_packets = 0)
    (hold : IsNewerTimestamp ts s.last_timestamp = false) :
    ∀ i, i ≤ 5 →
      (updN s ts rate envs i).delay_history = s.delay_history ∧
      (updN s ts rate envs i).num_reordered_packets = (i : Int) ∧
      (updN s ts rate envs i).last_timestamp = s.last_timestamp ∧
      (updN s ts rate envs i).stopwatch_resets = s.stopwatch_resets ∧
      (updN s ts rate envs i).first_packet_received = true := by
  intro i
  induction i with
  | zero => exact fun _ => ⟨rfl, by show s.num_reordered_packets = _; rw [hcnt]; norm_num,
      rfl, rfl, hfirst⟩
  | succ n ih =>
      intro hle
      obtain ⟨e1, e2, e3, e4, e5⟩ := ih (by omega)
      have hlt : (updN s ts rate envs n).num_reordered_packets < kMaxNumReorderedPackets := by
        rw [e2]
        unfold kMaxNumReorderedPackets
        exact_mod_cast (by omega : n < 5)
      have hnew' : IsNewerTimestamp ts (updN s ts rate envs n).last_timestamp = false := by
        rw [e3]; exact hold
      rw [show updN s ts rate envs (n + 1) =
            ((updN s ts rate envs n).Update ts rate false (envs (n + 1))).2 from rfl,
          update_reordered_lt_eq _ ts rate (envs (n + 1)) hr e5 hnew' hlt]
      refine ⟨e1, ?_, e3, e4, e5⟩
      rw [show ({ updN s ts rate envs n with
            target_level_ms := targetLevelFrom (updN s ts rate envs n) (envs (n + 1)).quantile_bucket,
            hist_adds :=
              if Int.tdiv (max (iatDelayMs (updN s ts rate envs n) ts rate (envs (n + 1))) 0)
                    kBucketSizeMs < (envs (n + 1)).num_buckets then
                (updN s ts rate envs n).hist_adds ++
                  [Int.tdiv (max (iatDelayMs (updN s ts rate envs n) ts rate (envs (n + 1))) 0)
                    kBucketSizeMs]
              else (updN s ts rate envs n).hist_adds,
            num_reordered_packets :=
              (updN s ts rate envs n).num_reordered_packets + 1 } : DelayManager).num_reordered_packets =
          (updN s ts rate envs n).num_reordered_packets + 1 from rfl, e2]
      push_cast
      ring

/-- C4: starting from the tracking state with a zero reorder counter, feeding
5 consecutive reordered packets does not clear the history and the reorder
counter equals the number of reordered packets seen (hence stays `≤ 5`);
the 6th consecutive reordered packet clears the history, after which the
reorder counter is reset to 0 and `last_timestamp` and the stopwatch are
advanced. -/
theorem reorder_tolerance_six_packets (s : DelayManager) (ts : Nat) (rate : Int)
    (envs : Nat → UpdateEnv)
    (hr : 0 < rate) (hfirst : s.first_packet_received = true)
    (hcnt : s.num_reordered_packets = 0)
    (hold : IsNewerTimestamp ts s.last_timestamp = false) :
    (∀ i, i ≤ 5 →
      (updN s ts rate envs i).delay_history = s.delay_history ∧
      (updN s ts rate envs i).num_reordered_packets = (i : Int)) ∧
    (updN s ts rate envs 6).delay_history = [] ∧
    (updN s ts rate envs 6).num_reordered_packets = 0 ∧
    (updN s ts rate envs 6).last_timestamp = ts % U32 ∧
    (updN s ts rate envs 6).stopwatch_resets = s.stopwatch_resets + 1 := by
  have hiter := reorder_iter_facts s ts rate envs hr hfirst hcnt hold
  constructor
  · intro i hi
    obtain ⟨e1, e2, _⟩ := hiter i hi
    exact ⟨e1, e2⟩
  · obtain ⟨e1, e2, e3, e4, e5⟩ := hiter 5 le_rfl
    have hge : ¬ (updN s ts rate envs 5).num_reordered_packets < kMaxNumReorderedPackets := by
      rw [e2]
      unfold kMaxNumReorderedPackets
      norm_num
    have hnew' : IsNewerTimestamp ts (updN s ts rate envs 5).last_timestamp = false := by
      rw [e3]; exact hold
    rw [show updN s ts rate envs 6 =
          ((updN s ts rate envs 5).Update ts rate false (envs 6)).2 from rfl,
        update_reordered_ge_eq _ ts rate (envs 6) hr e5 hnew' hge]
    exact ⟨rfl, rfl, rfl, by rw [show ({ updN s ts rate envs 5 with
      target_level_ms := targetLevelFrom (updN s ts rate envs 5) (envs 6).quantile_bucket,
      delay_history := [],
      hist_adds :=
        if Int.tdiv (max (iatDelayMs (updN s ts rate envs 5) ts rate (envs 6)) 0)
              kBucketSizeMs < (envs 6).num_buckets then
          (updN s ts rate envs 5).hist_adds ++
            [Int.tdiv (max (iatDelayMs (updN s ts rate envs 5) ts rate (envs 6)) 0) kBucketSizeMs]
        else (updN s ts rate envs 5).hist_adds,
      num_reordered_packets := 0,
      stopwatch_resets := (updN s ts rate envs 5).stopwatch_resets + 1,
      last_timestamp := ts % U32,
      last_horizon := 0 } : DelayManager).stopwatch_resets =
        (updN s ts rate envs 5).stopwatch_resets + 1 from rfl, e4]⟩

/-- Witness for C4 at a concrete input. -/
theorem reorder_tolerance_six_packets_witness :
    let s := (((construct 10 0).Update 1000 8000 false ⟨0, 1, 100⟩).2.Update
                1160 8000 false ⟨20, 1, 100⟩).2
    let envs : Nat → UpdateEnv := fun _ => ⟨25, 1, 100⟩
    (∀ i, i ≤ 5 →
      (updN s 900 8000 envs i).delay_history = s.delay_history ∧
      (updN s 900 8000 envs i).num_reordered_packets = (i : Int)) ∧
    (updN s 900 8000 envs 6).delay_history = [] ∧
    (updN s 900 8000 envs 6).num_reordered_packets = 0 ∧
    (updN s 900 8000 envs 6).last_timestamp = 900 % U32 ∧
    (updN s 900 8000 envs 6).stopwatch_resets = s.stopwatch_resets + 1 :=
  reorder_tolerance_six_packets
    ((((construct 10 0).Update 1000 8000 false ⟨0, 1, 100⟩).2.Update
        1160 8000 false ⟨20, 1, 100⟩).2) 900 8000 (fun _ => ⟨25, 1, 100⟩)
    (by norm_num) (by decide) (by decide) (by decide)

/-! ### C6 -/

lemma update_bad_rate_eq (s : DelayManager) (ts : Nat) (rate : Int) (rst : Bool)
    (env : UpdateEnv) (h0 : rate ≤ 0) : s.Update ts rate rst env = (none, s) := by
  simp [DelayManager.Update, h0]

lemma update_init_eq (s : DelayManager) (ts : Nat) (rate : Int) (rst : Bool)
    (env : UpdateEnv) (hr' : ¬ rate ≤ 0)
    (hcond : (!s.first_packet_received || rst) = true) :
    s.Update ts rate rst env =
      (none, { s with delay_history := [],
                      stopwatch_resets := s.stopwatch_resets + 1,
                      last_timestamp := ts % U32,
                      first_packet_received := true,
                      num_reordered_packets := 0,
                      last_horizon := 0 }) := by
  simp [DelayManager.Update, hr', hcond]

lemma horizonTicks_le (rate : Int) (hr : 0 < rate) (hle : rate ≤ 1073741) :
    horizonTicks rate ≤ 2147482 := by
  unfold horizonTicks kMaxHistoryMs
  have h2 : (2000 : Int) * rate = 1000 * (2 * rate) := by ring
  rw [h2, Int.mul_tdiv_cancel_left _ (by norm_num)]
  have h3 : Int.toNat (2 * rate) ≤ 2147482 := by omega
  exact le_trans (Nat.mod_le _ _) h3

lemma evictOld_mem (t h : Nat) :
    ∀ (l : List PacketDelay) (e : PacketDelay), e ∈ evictOld t h l → e ∈ l := by
  intro l
  induction l with
  | nil => intro e he; simp [evictOld] at he
  | cons d rest ih =>
      intro e he
      simp only [evictOld] at he
      split_ifs at he with hc
      · exact List.mem_cons_of_mem _ (ih e he)
      · exact he

lemma evictOld_pairwise (t h : Nat) {R : PacketDelay → PacketDelay → Prop} :
    ∀ (l : List PacketDelay), l.Pairwise R → (evictOld t h l).Pairwise R := by
  intro l
  induction l with
  | nil => intro _; simp [evictOld]
  | cons d rest ih =>
      intro hp
      simp only [evictOld]
      split_ifs with hc
      · exact ih hp.of_cons
      · exact hp

lemma evictOld_all_le (t h : Nat) :
    ∀ (l : List PacketDelay),
      l.Pairwise (fun a b => usub32 t b.timestamp ≤ usub32 t a.timestamp) →
      ∀ e ∈ evictOld t h l, usub32 t e.timestamp ≤ h := by
  intro l
  induction l with
  | nil => intro _ e he; simp [evictOld] at he
  | cons d rest ih =>
      intro hp e he
      simp only [evictOld] at he
      split_ifs at he with hc
      · exact ih hp.of_cons e he
      · rcases List.mem_cons.mp he with rfl | hmem
        · exact not_lt.mp hc
        · exact le_trans ((List.pairwise_cons.mp hp).1 e hmem) (not_lt.mp hc)

lemma histWF_of_fields (s t : DelayManager)
    (h1 : t.last_timestamp = s.last_timestamp)
    (h2 : t.delay_history = s.delay_history)
    (h3 : t.last_horizon = s.last_horizon)
    (hs : histWF s) : histWF t := by
  unfold histWF at *
  rw [h1, h2, h3]
  exact hs

lemma histWF_cleared (t : DelayManager)
    (h1 : t.last_timestamp < U32)
    (h2 : t.delay_history = [])
    (h3 : t.last_horizon = 0) : histWF t := by
  unfold histWF
  rw [h2, h3]
  refine ⟨h1, by simp, by norm_num, by simp, List.Pairwise.nil, by simp⟩

lemma histWF_update_inorder (s : DelayManager) (ts : Nat) (rate : Int) (env : UpdateEnv)
    (hr : 0 < rate) (hrle : rate ≤ 1073741)
    (hfirst : s.first_packet_received = true)
    (hnew : IsNewerTimestamp ts s.last_timestamp = true)
    (hs : histWF s) : histWF ((s.Update ts rate false env).2) := by
  obtain ⟨hL, hA, hhz, hdel, hpw, hlast⟩ := hs
  rw [update_inorder_eq s ts rate env hr hfirst hnew]
  simp only [IsNewerTimestamp, decide_eq_true_eq] at hnew
  have hhle : horizonTicks rate ≤ 2147482 := horizonTicks_le rate hr hrle
  have hTlt : ts % U32 < U32 := Nat.mod_lt _ (by norm_num [U32])
  have hshift : ∀ e ∈ s.delay_history,
      usub32 ts e.timestamp =
        usub32 ts s.last_timestamp + usub32 s.last_timestamp e.timestamp := by
    intro e he
    apply usub32_add_chain
    have hd := hdel e he
    have hstep := hnew.2
    unfold U32 HALF32 at *
    omega
  have hx0 : usub32 ts (ts % U32) = 0 := by
    rw [usub32_mod_right, usub32_self]
  have hpw2 : (s.delay_history ++ [(⟨iatDelayMs s ts rate env, ts % U32⟩ : PacketDelay)]).Pairwise
      (fun a b => usub32 ts b.timestamp ≤ usub32 ts a.timestamp) := by
    rw [List.pairwise_append]
    refine ⟨?_, List.pairwise_singleton _ _, ?_⟩
    · refine List.Pairwise.imp_of_mem ?_ hpw
      intro a b ha hb hab
      rw [hshift a ha, hshift b hb]
      omega
    · intro a ha b hb
      simp only [List.mem_singleton] at hb
      subst hb
      simp only [hx0]
      exact Nat.zero_le _
  constructor
  · exact hTlt
  constructor
  · intro e he
    rcases List.mem_append.mp
        (evictOld_mem ts (horizonTicks rate) _ e he) with hmem | hmem
    · exact hA e hmem
    · simp only [List.mem_singleton] at hmem
      subst hmem
      exact hTlt
  constructor
  · exact hhle
  constructor
  · intro e he
    rw [usub32_mod_left]
    exact evictOld_all_le ts (horizonTicks rate) _ hpw2 e he
  constructor
  · refine List.Pairwise.imp ?_ (evictOld_pairwise ts (horizonTicks rate) _ hpw2)
    intro a b hab
    rw [usub32_mod_left, usub32_mod_left]
    exact hab
  · intro e he
    have he' : (evictOld ts (horizonTicks rate)
        (s.delay_history ++ [(⟨iatDelayMs s ts rate env, ts % U32⟩ : PacketDelay)])).getLast? =
          some e := he
    rw [evictOld_getLast_concat ts (horizonTicks rate) s.delay_history
        ⟨iatDelayMs s ts rate env, ts % U32⟩ (le_of_eq_of_le hx0 (Nat.zero_le _))] at he'
    cases he'
    rfl

lemma histWF_applyOp (s : DelayManager) (op : Op)
    (hs : histWF s) (hop : opRateOK op) : histWF (applyOp s op) := by
  cases op with
  | update ts rate rst env =>
      by_cases hr0 : rate ≤ 0
      · simp only [applyOp, update_bad_rate_eq s ts rate rst env hr0]
        exact hs
      · by_cases hini : (!s.first_packet_received || rst) = true
        · simp only [applyOp, update_init_eq s ts rate rst env hr0 hini]
          exact histWF_cleared _ (Nat.mod_lt _ (by norm_num [U32])) rfl rfl
        · have hfirst : s.first_packet_received = true := by
            rcases Bool.eq_false_or_eq_true s.first_packet_received with h | h
            · exact h
            · rw [h] at hini; simp at hini
          have hrst : rst = false := by
            rcases Bool.eq_false_or_eq_true rst with h | h
            · rw [h] at hini; simp at hini
            · exact h
          subst hrst
          have hr : 0 < rate := lt_of_not_le hr0
          rcases Bool.eq_false_or_eq_true (IsNewerTimestamp ts s.last_timestamp) with hnew | hnew
          · exact histWF_update_inorder s ts rate env hr hop hfirst hnew hs
          · by_cases hcnt : s.num_reordered_packets < kMaxNumReorderedPackets
            · simp only [applyOp, update_reordered_lt_eq s ts rate env hr hfirst hnew hcnt]
              exact histWF_of_fields s _ rfl rfl rfl hs
            · simp only [applyOp, update_reordered_ge_eq s ts rate env hr hfirst hnew hcnt]
              exact histWF_cleared _ (Nat.mod_lt _ (by norm_num [U32])) rfl rfl
  | setMinimumDelay ms =>
      simp only [applyOp, SetMinimumDelay]
      split_ifs
      · exact histWF_of_fields s _ rfl rfl rfl hs
      · exact hs
  | setMaximumDelay ms =>
      simp only [applyOp, SetMaximumDelay]
      split_ifs
      · exact hs
      · exact histWF_of_fields s _ rfl rfl rfl hs
  | setBaseMinimumDelay ms =>
      simp only [applyOp, SetBaseMinimumDelay]
      split_ifs
      · exact histWF_of_fields s _ rfl rfl rfl hs
      · exact hs
  | setPacketAudioLength ms =>
      simp only [applyOp, SetPacketAudioLength]
      split_ifs
      · exact hs
      · exact histWF_of_fields s _ rfl rfl rfl hs
  | reset =>
      simp only [applyOp]
      exact histWF_cleared _ hs.1 rfl rfl

lemma histWF_run : ∀ (ops : List Op) (s : DelayManager),
    histWF s → (∀ op ∈ ops, opRateOK op) → histWF (run s ops) := by
  intro ops
  induction ops with
  | nil => intro s hs _; exact hs
  | cons op rest ih =>
      intro s hs hops
      rw [show run s (op :: rest) = run (applyOp s op) rest from rfl]
      exact ih _ (histWF_applyOp s op hs (hops op (List.mem_cons_self op rest)))
        (fun o ho => hops o (List.mem_cons_of_mem _ ho))

lemma histWF_construct (mp base : Int) : histWF (construct mp base) :=
  histWF_cleared _ (by norm_num [construct, Reset, U32]) rfl rfl

/-- C6: for every call trace from construction in which each `Update` uses a
sample rate for which the C++ arithmetic `kMaxHistoryMs * sample_rate_hz` does
not overflow (`rate ≤ 1073741`), the resulting state has no history entry
whose timestamp is older (under `uint32_t` wraparound subtraction) than
`last_horizon` — the ghost recording of `2000 * sample_rate_hz / 1000`
timestamp ticks from the most recent in-order append — relative to
`last_timestamp`, which equals the most recently appended in-order timestamp
(the last history entry). -/
theorem history_horizon_invariant (mp base : Int) (ops : List Op)
    (hops : ∀ op ∈ ops, opRateOK op) :
    (∀ e ∈ (run (construct mp base) ops).delay_history,
       usub32 (run (construct mp base) ops).last_timestamp e.timestamp ≤
         (run (construct mp base) ops).last_horizon) ∧
    (∀ e, ((run (construct mp base) ops).delay_history).getLast? = some e →
       e.timestamp = (run (construct mp base) ops).last_timestamp) := by
  have h := histWF_run ops (construct mp base) (histWF_construct mp base) hops
  exact ⟨h.2.2.2.1, h.2.2.2.2.2⟩

/-- Witness for C6 at a concrete trace (three updates, one reordered, plus a
setter). -/
theorem history_horizon_invariant_witness :
    (∀ e ∈ (run (construct 10 0)
        [Op.update 1000 8000 false ⟨0, 1, 100⟩,
         Op.update 1160 8000 false ⟨20, 1, 100⟩,
         Op.setMinimumDelay 40,
         Op.update 900 8000 false ⟨25, 2, 100⟩,
         Op.update 1320 8000 false ⟨20, 1, 100⟩]).delay_history,
       usub32 (run (construct 10 0)
        [Op.update 1000 8000 false ⟨0, 1, 100⟩,
         Op.update 1160 8000 false ⟨20, 1, 100⟩,
         Op.setMinimumDelay 40,
         Op.update 900 8000 false ⟨25, 2, 100⟩,
         Op.update 1320 8000 false ⟨20, 1, 100⟩]).last_timestamp e.timestamp ≤
         (run (construct 10 0)
        [Op.update 1000 8000 false ⟨0, 1, 100⟩,
         Op.update 1160 8000 false ⟨20, 1, 100⟩,
         Op.setMinimumDelay 40,
         Op.update 900 8000 false ⟨25, 2, 100⟩,
         Op.update 1320 8000 false ⟨20, 1, 100⟩]).last_horizon) ∧
    (∀ e, ((run (construct 10 0)
        [Op.update 1000 8000 false ⟨0, 1, 100⟩,
         Op.update 1160 8000 false ⟨20, 1, 100⟩,
         Op.setMinimumDelay 40,
         Op.update 900 8000 false ⟨25, 2, 100⟩,
         Op.update 1320 8000 false ⟨20, 1, 100⟩]).delay_history).getLast? = some e →
       e.timestamp = (run (construct 10 0)
        [Op.update 1000 8000 false ⟨0, 1, 100⟩,
         Op.update 1160 8000 false ⟨20, 1, 100⟩,
         Op.setMinimumDelay 40,
         Op.update 900 8000 false ⟨25, 2, 100⟩,
         Op.update 1320 8000 false ⟨20, 1, 100⟩]).last_timestamp) :=
  history_horizon_invariant 10 0
    [Op.update 1000 8000 false ⟨0, 1, 100⟩,
     Op.update 1160 8000 false ⟨20, 1, 100⟩,
     Op.setMinimumDelay 40,
     Op.update 900 8000 false ⟨25, 2, 100⟩,
     Op.update 1320 8000 false ⟨20, 1, 100⟩]
    (by intro op hop
        simp only [List.mem_cons, List.not_mem_nil, or_false] at hop
        rcases hop with rfl | rfl | rfl | rfl | rfl <;> simp [opRateOK])

end NetEq
